import Mathlib

/-!
Verification of the subscription/quota engine and the bigram similarity
scorer of the Digital-library repository.  JavaScript strings are modelled
as `List Char`, timestamps as `Int` milliseconds, MongoDB ObjectIds as
`Nat`, and floating-point scores as `ℚ` (the concrete scores involved are
small exact fractions).
-/

namespace DigitalLibrary

/-! ## Similarity scorer (admin route, `calculateSimilarity`) -/

/-- Overlapping 2-character substrings of a string, in scan order, duplicates
kept: the two `for` loops `pairs.push(str.substring(i, i+2))`. -/
def bigrams : List Char → List (Char × Char)
  | [] => []
  | [_] => []
  | a :: b :: rest => (a, b) :: bigrams (b :: rest)

/-- `pairs2.splice(j, 1)` at the first index `j` whose element equals `p`:
remove the first occurrence of `p`. -/
def spliceFirst : List (Char × Char) → (Char × Char) → List (Char × Char)
  | [], _ => []
  | q :: rest, p => if q = p then rest else q :: spliceFirst rest p

/-- The intersection loop of `calculateSimilarity`: for each element of the
first list in order, find the first equal element still present in the second
list; on a match increment the counter and `splice` that element out of the
second list.  Returns the final counter together with the mutated second
list (the JS code reads `pairs2.length` after the loop). -/
def greedyIntersect : List (Char × Char) → List (Char × Char) → Nat × List (Char × Char)
  | [], l2 => (0, l2)
  | p :: rest, l2 =>
    if p ∈ l2 then
      let r := greedyIntersect rest (spliceFirst l2 p)
      (r.1 + 1, r.2)
    else
      greedyIntersect rest l2

/-- `calculateSimilarity(str1, str2)` from the admin router: early return 1 on
identical strings, 0 when either string is shorter than 2 characters, else
`(2 * intersection) / (pairs1.length + pairs2.length)` where `pairs2` has
been mutated by the intersection loop. -/
def calculateSimilarity (str1 str2 : List Char) : ℚ :=
  if str1 = str2 then 1
  else if str1.length < 2 ∨ str2.length < 2 then 0
  else
    (2 * ((greedyIntersect (bigrams str1) (bigrams str2)).1 : ℚ)) /
      (((bigrams str1).length : ℚ) +
        (((greedyIntersect (bigrams str1) (bigrams str2)).2.length : ℚ)))

/-- Modelled from the spec: the formula the spec states for distinct strings
of length at least 2, namely `2 * |intersection| / (|bigrams(a)| + |bigrams(b)|)`
with the greedy first-found multiset intersection. -/
def diceSpecScore (a b : List Char) : ℚ :=
  (2 * (greedyIntersect (bigrams a) (bigrams b)).1 : ℚ) /
    (((bigrams a).length : ℚ) + ((bigrams b).length : ℚ))

/-! ## User entitlement state (`models/User.js`, subscription fields) -/

/-- `subscription_status` enum of the user schema. -/
inductive SubStatus
  | none
  | active
  | expired
deriving DecidableEq

/-- `subscription_plan` enum of the user schema (`'none' | 'basic' | 'premium'`). -/
inductive Plan
  | none
  | basic
  | premium
deriving DecidableEq

/-- The subscription-relevant fields of a user document. -/
structure UserRec where
  subscription_plan : Plan
  subscription_status : SubStatus
  subscription_start : Option Int
  subscription_end : Option Int
  period_started_at : Option Int
  read_books_in_period : List Nat
  downloaded_books_in_period : List Nat
deriving DecidableEq

/-- 30 days in milliseconds, the window constant `30 * 24 * 60 * 60 * 1000`. -/
def PERIOD_MS : Int := 30 * 24 * 60 * 60 * 1000

/-- The `start` local of `resetPeriodIfNeeded`:
`user.period_started_at || user.subscription_start` (a Date object is always
truthy in JS, so the fallback fires exactly when `period_started_at` is unset). -/
def effectiveStart (u : UserRec) : Option Int :=
  match u.period_started_at with
  | some s => some s
  | none => u.subscription_start

/-- `resetPeriodIfNeeded(user)` from `routes/books.js`: when the effective
start is unset or more than 30 days before `now`, set
`period_started_at = now` and clear both usage arrays. -/
def resetPeriodIfNeeded (now : Int) (u : UserRec) : UserRec :=
  match effectiveStart u with
  | none =>
    { u with period_started_at := some now,
             read_books_in_period := [],
             downloaded_books_in_period := [] }
  | some s =>
    if now - s > PERIOD_MS then
      { u with period_started_at := some now,
               read_books_in_period := [],
               downloaded_books_in_period := [] }
    else u

/-- Modelled from the spec: `shouldReset(periodStart, now) -> bool` =
`periodStart is unset OR (now - periodStart) > 30 days` (note: stated on
`period_started_at` alone, with no fallback). -/
def shouldResetSpec (periodStart : Option Int) (now : Int) : Bool :=
  match periodStart with
  | none => true
  | some s => decide (now - s > PERIOD_MS)

/-- The reset condition the code actually tests, on the effective start. -/
def shouldResetCode (now : Int) (u : UserRec) : Bool :=
  match effectiveStart u with
  | none => true
  | some s => decide (now - s > PERIOD_MS)

/-- `getPlanLimits(plan)` from `routes/books.js`. -/
structure PlanLimits where
  maxReads : Nat
  maxDownloads : Nat
deriving DecidableEq

/-- `getPlanLimits`: premium `{100, 25}`, basic `{10, 5}`, anything else `{0, 0}`. -/
def getPlanLimits : Plan → PlanLimits
  | Plan.premium => ⟨100, 25⟩
  | Plan.basic => ⟨10, 5⟩
  | _ => ⟨0, 0⟩

/-- The `type` argument of `ensureActiveAndWithinLimits`. -/
inductive AccessType
  | read
  | download
deriving DecidableEq

/-- The possible outcomes of `ensureActiveAndWithinLimits`, one per distinct
`return` message of the source. -/
inductive Outcome
  | userNotFound
  | subscriptionInactive
  | noActivePlan
  | limitReached
  | authorized
deriving DecidableEq

/-- `ensureActiveAndWithinLimits(userId, bookId, type)` from `routes/books.js`.
The user lookup is modelled by the `Option UserRec` argument; the returned
`Option UserRec` is the document passed to `user.save()` (`none` when the
function returns before reaching the save). -/
def ensureActiveAndWithinLimits (now : Int) (userOpt : Option UserRec)
    (bookId : Nat) (ty : AccessType) : Outcome × Option UserRec :=
  match userOpt with
  | none => (Outcome.userNotFound, none)
  | some user =>
    if user.subscription_status ≠ SubStatus.active then
      (Outcome.subscriptionInactive, none)
    else
      match user.subscription_end with
      | none => (Outcome.subscriptionInactive, none)
      | some e =>
        if e < now then (Outcome.subscriptionInactive, none)
        else
          let u := resetPeriodIfNeeded now user
          let limits := getPlanLimits u.subscription_plan
          if limits.maxReads = 0 ∧ limits.maxDownloads = 0 then
            (Outcome.noActivePlan, none)
          else
            match ty with
            | AccessType.read =>
              let already := bookId ∈ u.read_books_in_period
              if ¬ already ∧ u.read_books_in_period.length ≥ limits.maxReads then
                (Outcome.limitReached, none)
              else
                let u2 := if already then u
                  else { u with read_books_in_period := u.read_books_in_period ++ [bookId] }
                (Outcome.authorized, some u2)
            | AccessType.download =>
              let already := bookId ∈ u.downloaded_books_in_period
              if ¬ already ∧ u.downloaded_books_in_period.length ≥ limits.maxDownloads then
                (Outcome.limitReached, none)
              else
                let u2 := if already then u
                  else { u with downloaded_books_in_period := u.downloaded_books_in_period ++ [bookId] }
                (Outcome.authorized, some u2)

/-- Stored user state after one gate call: the saved document when the call
saved, the untouched stored document otherwise. -/
def dbAfter (now : Int) (u : UserRec) (bookId : Nat) (ty : AccessType) : UserRec :=
  match (ensureActiveAndWithinLimits now (some u) bookId ty).2 with
  | some u2 => u2
  | none => u

/-- Outcome of one gate call against a stored user. -/
def outcomeOf (now : Int) (u : UserRec) (bookId : Nat) (ty : AccessType) : Outcome :=
  (ensureActiveAndWithinLimits now (some u) bookId ty).1

/-- The user state after a reset has fired: both usage arrays cleared and
`period_started_at = now`. -/
def resetState (now : Int) (u : UserRec) : UserRec :=
  { u with period_started_at := some now,
           read_books_in_period := [],
           downloaded_books_in_period := [] }

/-- Run the gate once per content id, in order, accumulating the stored user
state and the list of outcomes (one route call per id). -/
def consumeAll (now : Int) (u : UserRec) (ids : List Nat) (ty : AccessType) :
    UserRec × List Outcome :=
  match ids with
  | [] => (u, [])
  | i :: rest =>
    let o := outcomeOf now u i ty
    let r := consumeAll now (dbAfter now u i ty) rest ty
    (r.1, o :: r.2)

/-! ## Subscription requests (`models/SubscriptionRequest.js`,
`routes/user.js` submit, admin approve route) -/

/-- `status` enum of the subscription request schema. -/
inductive ReqStatus
  | pending
  | processed
deriving DecidableEq

/-- A subscription request document. -/
structure SubRequest where
  user : Nat
  plan : Plan
  status : ReqStatus
  processed_at : Option Int
  note : String
deriving DecidableEq

/-- `Model.findById`: first entry of the store whose key matches. -/
def findById {α : Type} (store : List (Nat × α)) (id : Nat) : Option α :=
  (store.find? (fun p => p.1 == id)).map Prod.snd

/-- `doc.save()`: replace every entry stored under the document's id. -/
def saveById {α : Type} (store : List (Nat × α)) (id : Nat) (v : α) :
    List (Nat × α) :=
  store.map (fun p => if p.1 == id then (id, v) else p)

/-- The entitlement grant performed by the approve route: new plan, active
status, `start = now`, `end = now + 30 days`, period reset. -/
def grantSubscription (now : Int) (plan : Plan) (u : UserRec) : UserRec :=
  { u with subscription_plan := plan,
           subscription_status := SubStatus.active,
           subscription_start := some now,
           subscription_end := some (now + 30 * 24 * 60 * 60 * 1000),
           period_started_at := some now,
           read_books_in_period := [],
           downloaded_books_in_period := [] }

/-- Results of the approve route, one per distinct response. -/
inductive ApproveResult
  | notFound
  | alreadyProcessed
  | userNotFound
  | ok
deriving DecidableEq

/-- `POST /requests/:id/approve`: 404 when the request is missing, 400 when
already processed, 404 when its user is missing; otherwise grant the plan to
the user, save, then mark the request processed with a timestamp and save. -/
def approve (now : Int) (reqs : List (Nat × SubRequest))
    (users : List (Nat × UserRec)) (rid : Nat) :
    ApproveResult × List (Nat × SubRequest) × List (Nat × UserRec) :=
  match findById reqs rid with
  | none => (ApproveResult.notFound, reqs, users)
  | some r =>
    if r.status = ReqStatus.processed then
      (ApproveResult.alreadyProcessed, reqs, users)
    else
      match findById users r.user with
      | none => (ApproveResult.userNotFound, reqs, users)
      | some u =>
        (ApproveResult.ok,
         saveById reqs rid { r with status := ReqStatus.processed, processed_at := some now },
         saveById users r.user (grantSubscription now r.plan u))

/-- The `findOne({user, plan, status: 'pending'})` predicate of the submit
route. -/
def isPendingFor (uid : Nat) (plan : Plan) (p : Nat × SubRequest) : Bool :=
  decide (p.2.user = uid ∧ p.2.plan = plan ∧ p.2.status = ReqStatus.pending)

/-- `SubscriptionRequest.findOne({user, plan, status: 'pending'})`. -/
def findPendingReq (reqs : List (Nat × SubRequest)) (uid : Nat) (plan : Plan) :
    Option (Nat × SubRequest) :=
  reqs.find? (isPendingFor uid plan)

/-- `POST /subscribe-request`: when a pending request for the same user and
plan exists, answer with its id and create nothing; otherwise create a new
pending request (`freshId` models the id MongoDB assigns to the new
document). -/
def submitRequest (reqs : List (Nat × SubRequest)) (uid : Nat) (plan : Plan)
    (note : String) (freshId : Nat) : Nat × List (Nat × SubRequest) :=
  match findPendingReq reqs uid plan with
  | some (id, _) => (id, reqs)
  | none =>
    (freshId, reqs ++ [(freshId, ⟨uid, plan, ReqStatus.pending, none, note⟩)])

/-- The queue invariant: at most one pending request per (user, plan) pair. -/
def atMostOnePending (reqs : List (Nat × SubRequest)) : Prop :=
  ∀ uid plan, (reqs.filter (isPendingFor uid plan)).length ≤ 1

/-! ## Lemmas about the similarity scorer -/

/-- A string of length `n` has `n - 1` bigrams. -/
theorem bigrams_length : ∀ s : List Char, (bigrams s).length = s.length - 1
  | [] => rfl
  | [_] => rfl
  | _ :: b :: rest => by
    have ih := bigrams_length (b :: rest)
    simp only [bigrams, List.length_cons] at ih ⊢
    omega

/-- Putting the spliced-out element back in front of the spliced list
recovers the original list as a multiset. -/
theorem spliceFirst_cons_coe (l : List (Char × Char)) (p : Char × Char)
    (h : p ∈ l) :
    (p ::ₘ (spliceFirst l p : Multiset (Char × Char))) =
      (l : Multiset (Char × Char)) := by
  induction l with
  | nil => cases h
  | cons q rest ih =>
    by_cases hq : q = p
    · subst hq
      simp [spliceFirst]
    · have hp : p ∈ rest := by
        rcases List.mem_cons.mp h with h1 | h1
        · exact absurd h1.symm hq
        · exact h1
      simp only [spliceFirst, if_neg hq]
      rw [← Multiset.cons_coe, ← Multiset.cons_coe, Multiset.cons_swap, ih hp]

/-- The splice removes exactly the first occurrence of `p`: as a multiset it
is `erase`. -/
theorem spliceFirst_coe_erase (l : List (Char × Char)) (p : Char × Char)
    (h : p ∈ l) :
    (spliceFirst l p : Multiset (Char × Char)) =
      (l : Multiset (Char × Char)).erase p := by
  rw [← spliceFirst_cons_coe l p h, Multiset.erase_cons_head]

/-- Splicing out one present element shortens the list by exactly one. -/
theorem spliceFirst_length (l : List (Char × Char)) (p : Char × Char)
    (h : p ∈ l) : (spliceFirst l p).length + 1 = l.length := by
  have hc := congrArg Multiset.card (spliceFirst_cons_coe l p h)
  simpa using hc

/-- The counter of the greedy intersection loop is the cardinality of the
multiset intersection of the two bigram lists. -/
theorem greedyIntersect_fst : ∀ l1 l2 : List (Char × Char),
    (greedyIntersect l1 l2).1 =
      ((l1 : Multiset (Char × Char)) ∩ (l2 : Multiset (Char × Char))).card
  | [], l2 => by
    simp [greedyIntersect]
  | p :: rest, l2 => by
    by_cases h : p ∈ l2
    · have hm : p ∈ (l2 : Multiset (Char × Char)) := by simpa using h
      have ih := greedyIntersect_fst rest (spliceFirst l2 p)
      simp only [greedyIntersect, if_pos h]
      rw [ih, spliceFirst_coe_erase l2 p h, ← Multiset.cons_coe,
        Multiset.cons_inter_of_pos _ hm, Multiset.card_cons]
    · have hm : p ∉ (l2 : Multiset (Char × Char)) := by simpa using h
      have ih := greedyIntersect_fst rest l2
      simp only [greedyIntersect, if_neg h]
      rw [ih, ← Multiset.cons_coe, Multiset.cons_inter_of_neg _ hm]

/-- Each match of the greedy loop removes exactly one element from the second
list, so the final counter and the final length of the second list add up to
its initial length. -/
theorem greedyIntersect_snd_length : ∀ l1 l2 : List (Char × Char),
    (greedyIntersect l1 l2).2.length + (greedyIntersect l1 l2).1 = l2.length
  | [], l2 => by
    simp [greedyIntersect]
  | p :: rest, l2 => by
    by_cases h : p ∈ l2
    · have ih := greedyIntersect_snd_length rest (spliceFirst l2 p)
      have hlen := spliceFirst_length l2 p h
      simp only [greedyIntersect, if_pos h] at ih ⊢
      omega
    · have ih := greedyIntersect_snd_length rest l2
      simp only [greedyIntersect, if_neg h] at ih ⊢
      omega

/-- On distinct strings of length at least 2, `calculateSimilarity` returns
`2I / ((|a| - 1) + ((|b| - 1) - I))`: the `splice` calls have shrunk the
second bigram list by one per match before its length enters the
denominator. -/
theorem calcSim_formula (a b : List Char) (hne : a ≠ b)
    (ha : 2 ≤ a.length) (hb : 2 ≤ b.length) :
    calculateSimilarity a b =
      (2 * ((greedyIntersect (bigrams a) (bigrams b)).1 : ℚ)) /
        (((a.length : ℚ) - 1) +
          (((b.length : ℚ) - 1) - ((greedyIntersect (bigrams a) (bigrams b)).1 : ℚ))) := by
  have hlen : ¬ (a.length < 2 ∨ b.length < 2) := by omega
  have hsnd := greedyIntersect_snd_length (bigrams a) (bigrams b)
  have hba := bigrams_length a
  have hbb := bigrams_length b
  have h1 : (((bigrams a).length : ℚ)) = (a.length : ℚ) - 1 := by
    rw [hba]
    have : (1 : ℕ) ≤ a.length := by omega
    push_cast [this]
    ring
  have h2 : (((greedyIntersect (bigrams a) (bigrams b)).2.length : ℚ)) =
      ((b.length : ℚ) - 1) - ((greedyIntersect (bigrams a) (bigrams b)).1 : ℚ) := by
    have hfst : (greedyIntersect (bigrams a) (bigrams b)).2.length =
        b.length - 1 - (greedyIntersect (bigrams a) (bigrams b)).1 := by omega
    have hle : (greedyIntersect (bigrams a) (bigrams b)).1 ≤ b.length - 1 := by omega
    have hb1 : (1 : ℕ) ≤ b.length := by omega
    rw [hfst]
    push_cast [Nat.cast_sub hle, Nat.cast_sub hb1]
    ring
  unfold calculateSimilarity
  rw [if_neg hne, if_neg hlen, h1, h2]

/-- On short inputs the identical-strings check still fires first. -/
theorem calcSim_short (a b : List Char) (h : a.length < 2 ∨ b.length < 2) :
    calculateSimilarity a b = if a = b then 1 else 0 := by
  by_cases hab : a = b
  · simp [calculateSimilarity, hab]
  · simp [calculateSimilarity, hab, h]

/-- Claim C1: for distinct strings of length at least 2, the score is NOT the
spec's Dice formula `2I / (|bigrams(a)| + |bigrams(b)|)`: the loop has spliced
the matched bigrams out of `pairs2` before `pairs2.length` is read, so
`score("night","nacht") = 2/7` (not 1/4) and the score can exceed 1. -/
theorem calculateSimilarity_counterexample :
    calculateSimilarity ['n', 'i', 'g', 'h', 't'] ['n', 'a', 'c', 'h', 't'] = 2 / 7 ∧
    calculateSimilarity ['n', 'i', 'g', 'h', 't'] ['n', 'a', 'c', 'h', 't'] ≠
      diceSpecScore ['n', 'i', 'g', 'h', 't'] ['n', 'a', 'c', 'h', 't'] ∧
    diceSpecScore ['n', 'i', 'g', 'h', 't'] ['n', 'a', 'c', 'h', 't'] = 1 / 4 ∧
    1 < calculateSimilarity ['a', 'a', 'a', 'a', 'a'] ['a', 'a', 'a', 'a', 'b'] := by
  have hI : (greedyIntersect (bigrams ['n', 'i', 'g', 'h', 't'])
      (bigrams ['n', 'a', 'c', 'h', 't'])).1 = 1 := by decide
  have hR : (greedyIntersect (bigrams ['n', 'i', 'g', 'h', 't'])
      (bigrams ['n', 'a', 'c', 'h', 't'])).2.length = 3 := by decide
  have hL1 : (bigrams ['n', 'i', 'g', 'h', 't']).length = 4 := by decide
  have hL2 : (bigrams ['n', 'a', 'c', 'h', 't']).length = 4 := by decide
  have hIa : (greedyIntersect (bigrams ['a', 'a', 'a', 'a', 'a'])
      (bigrams ['a', 'a', 'a', 'a', 'b'])).1 = 3 := by decide
  have hRa : (greedyIntersect (bigrams ['a', 'a', 'a', 'a', 'a'])
      (bigrams ['a', 'a', 'a', 'a', 'b'])).2.length = 1 := by decide
  have hLa : (bigrams ['a', 'a', 'a', 'a', 'a']).length = 4 := by decide
  have hmain : calculateSimilarity ['n', 'i', 'g', 'h', 't'] ['n', 'a', 'c', 'h', 't'] = 2 / 7 := by
    unfold calculateSimilarity
    rw [if_neg (by decide), if_neg (by decide), hI, hR, hL1]
    norm_num
  have hdice : diceSpecScore ['n', 'i', 'g', 'h', 't'] ['n', 'a', 'c', 'h', 't'] = 1 / 4 := by
    unfold diceSpecScore
    rw [hI, hL1, hL2]
    norm_num
  refine ⟨hmain, ?_, hdice, ?_⟩
  · rw [hmain, hdice]
    norm_num
  · unfold calculateSimilarity
    rw [if_neg (by decide), if_neg (by decide), hIa, hRa, hLa]
    norm_num

/-- Claim C1 (amended): for distinct strings of length at least 2 the score
equals `2I / ((len(a) - 1) + ((len(b) - 1) - I))`, `I` the greedy first-found
multiset intersection of the bigram lists. -/
theorem calculateSimilarity_amended (a b : List Char) (hne : a ≠ b)
    (ha : 2 ≤ a.length) (hb : 2 ≤ b.length) :
    calculateSimilarity a b =
      (2 * ((greedyIntersect (bigrams a) (bigrams b)).1 : ℚ)) /
        (((a.length : ℚ) - 1) +
          (((b.length : ℚ) - 1) - ((greedyIntersect (bigrams a) (bigrams b)).1 : ℚ))) :=
  calcSim_formula a b hne ha hb

/-- Witness for the amended C1 at the strings "night" and "nacht". -/
theorem calculateSimilarity_amended_witness :
    (['n', 'i', 'g', 'h', 't'] : List Char) ≠ ['n', 'a', 'c', 'h', 't'] ∧
    calculateSimilarity ['n', 'i', 'g', 'h', 't'] ['n', 'a', 'c', 'h', 't'] =
      (2 * ((greedyIntersect (bigrams ['n', 'i', 'g', 'h', 't'])
          (bigrams ['n', 'a', 'c', 'h', 't'])).1 : ℚ)) /
        ((((['n', 'i', 'g', 'h', 't'] : List Char).length : ℚ) - 1) +
          (((((['n', 'a', 'c', 'h', 't'] : List Char).length : ℚ)) - 1) -
            ((greedyIntersect (bigrams ['n', 'i', 'g', 'h', 't'])
              (bigrams ['n', 'a', 'c', 'h', 't'])).1 : ℚ))) :=
  ⟨by decide,
   calculateSimilarity_amended ['n', 'i', 'g', 'h', 't'] ['n', 'a', 'c', 'h', 't']
     (by decide) (by decide) (by decide)⟩

/-- Claim C8: the similarity scorer is symmetric in its two arguments. -/
theorem calculateSimilarity_comm (a b : List Char) :
    calculateSimilarity a b = calculateSimilarity b a := by
  by_cases hab : a = b
  · subst hab
    rfl
  · have hba : b ≠ a := fun h => hab h.symm
    by_cases hlen : a.length < 2 ∨ b.length < 2
    · rw [calcSim_short a b hlen, calcSim_short b a (Or.symm hlen),
        if_neg hab, if_neg hba]
    · have ha : 2 ≤ a.length := by omega
      have hb : 2 ≤ b.length := by omega
      rw [calcSim_formula a b hab ha hb, calcSim_formula b a hba hb ha]
      have hI : (greedyIntersect (bigrams a) (bigrams b)).1 =
          (greedyIntersect (bigrams b) (bigrams a)).1 := by
        rw [greedyIntersect_fst, greedyIntersect_fst, Multiset.inter_comm]
      rw [hI]
      ring_nf

/-- Claim C9: identical strings shorter than 2 characters do NOT score 0: the
`str1 === str2` early return precedes the length check, so
`score("a","a") = 1`. -/
theorem shortIdentical_counterexample :
    (['a'] : List Char).length < 2 ∧
    calculateSimilarity ['a'] ['a'] = 1 ∧
    calculateSimilarity ['a'] ['a'] ≠ 0 := by
  refine ⟨by decide, by simp [calculateSimilarity], by simp [calculateSimilarity]⟩

/-- Claim C9 (amended): when either string is shorter than 2 characters the
score is 0 unless the two strings are identical, in which case it is 1. -/
theorem calculateSimilarity_short (a b : List Char)
    (h : a.length < 2 ∨ b.length < 2) :
    calculateSimilarity a b = if a = b then 1 else 0 :=
  calcSim_short a b h

/-! ## Lemmas about the period manager and the entitlement gate -/

/-- `resetPeriodIfNeeded` performs the reset exactly when the code's
condition on the effective start holds. -/
theorem resetPeriodIfNeeded_eq (now : Int) (u : UserRec) :
    resetPeriodIfNeeded now u =
      if shouldResetCode now u then resetState now u else u := by
  unfold resetPeriodIfNeeded shouldResetCode resetState
  cases heff : effectiveStart u with
  | none => simp
  | some s =>
    by_cases h : now - s > PERIOD_MS
    · simp [h]
    · simp [h]

/-- A state just reset at `now` does not trigger another reset at `now`. -/
theorem shouldResetCode_resetState (now : Int) (u : UserRec) :
    shouldResetCode now (resetState now u) = false := by
  simp only [shouldResetCode, effectiveStart, resetState]
  simp [PERIOD_MS]

/-- Claim C4 (amended): the reset fires exactly when the effective start
(`period_started_at`, falling back to `subscription_start` when unset) is
unset or more than 30 days before `now`; when it fires it clears both usage
sets and sets `period_started_at = now`; and an immediate second call
changes nothing further. -/
theorem resetPeriodIfNeeded_spec (now : Int) (u : UserRec) :
    (shouldResetCode now u = true →
      resetPeriodIfNeeded now u = resetState now u) ∧
    (shouldResetCode now u = false → resetPeriodIfNeeded now u = u) ∧
    resetPeriodIfNeeded now (resetPeriodIfNeeded now u) =
      resetPeriodIfNeeded now u := by
  refine ⟨fun h => by simp [resetPeriodIfNeeded_eq, h],
          fun h => by simp [resetPeriodIfNeeded_eq, h], ?_⟩
  by_cases h : shouldResetCode now u
  · have h1 : resetPeriodIfNeeded now u = resetState now u := by
      simp [resetPeriodIfNeeded_eq, h]
    rw [h1, resetPeriodIfNeeded_eq, shouldResetCode_resetState]
    simp
  · have h1 : resetPeriodIfNeeded now u = u := by
      simp [resetPeriodIfNeeded_eq, h]
    rw [h1]
    exact h1

/-- Witness for the amended C4: a user with no period anchor at all is reset. -/
theorem resetPeriodIfNeeded_spec_witness :
    resetPeriodIfNeeded 5 ⟨Plan.basic, SubStatus.active, none, some 9, none, [7], [8]⟩ =
      resetState 5 ⟨Plan.basic, SubStatus.active, none, some 9, none, [7], [8]⟩ :=
  (resetPeriodIfNeeded_spec 5 ⟨Plan.basic, SubStatus.active, none, some 9, none, [7], [8]⟩).1
    (by decide)

/-- Claim C4: the reset does NOT fire for every unset `period_started_at`:
with `period_started_at` unset but a recent `subscription_start`, the code
falls back to `subscription_start` and performs no reset, although the
claim's condition (`period_started_at` unset) holds. -/
theorem resetPeriod_fallback_counterexample :
    shouldResetSpec
        ((⟨Plan.basic, SubStatus.active, some 0, some 100, none, [], []⟩ : UserRec)).period_started_at 0 = true ∧
    resetPeriodIfNeeded 0 ⟨Plan.basic, SubStatus.active, some 0, some 100, none, [], []⟩ =
      ⟨Plan.basic, SubStatus.active, some 0, some 100, none, [], []⟩ ∧
    (⟨Plan.basic, SubStatus.active, some 0, some 100, none, [], []⟩ : UserRec).period_started_at = none := by
  refine ⟨by decide, by decide, by decide⟩

/-- Claim C5: an active-status user whose `subscription_end` is unset or in
the past is denied as subscription-inactive, and nothing is saved. -/
theorem inactive_denied (now : Int) (u : UserRec) (bid : Nat) (ty : AccessType)
    (hst : u.subscription_status = SubStatus.active)
    (hend : u.subscription_end = none ∨
      ∃ e, u.subscription_end = some e ∧ e < now) :
    ensureActiveAndWithinLimits now (some u) bid ty =
      (Outcome.subscriptionInactive, none) := by
  unfold ensureActiveAndWithinLimits
  dsimp only
  rw [if_neg (by simp [hst])]
  rcases hend with h | ⟨e, h, he⟩
  · rw [h]
  · rw [h]
    dsimp only
    rw [if_pos he]

/-- Witness for C5: status still says active but the end date has passed. -/
theorem inactive_denied_witness :
    (⟨Plan.basic, SubStatus.active, some 0, some 50, some 0, [], []⟩ : UserRec).subscription_status = SubStatus.active ∧
    ensureActiveAndWithinLimits 100
        (some ⟨Plan.basic, SubStatus.active, some 0, some 50, some 0, [], []⟩)
        1 AccessType.download = (Outcome.subscriptionInactive, none) :=
  ⟨by decide,
   inactive_denied 100 ⟨Plan.basic, SubStatus.active, some 0, some 50, some 0, [], []⟩
     1 AccessType.download (by decide) (Or.inr ⟨50, by decide, by decide⟩)⟩

/-- Every result of the gate is either authorized or carries no saved user:
`user.save()` sits on the success path only. -/
theorem ensure_shape (now : Int) (uo : Option UserRec) (bid : Nat)
    (ty : AccessType) :
    (ensureActiveAndWithinLimits now uo bid ty).1 = Outcome.authorized ∨
      (ensureActiveAndWithinLimits now uo bid ty).2 = none := by
  unfold ensureActiveAndWithinLimits
  rcases uo with _ | u
  · right
    rfl
  · dsimp only
    split
    · right
      rfl
    · split
      · right
        rfl
      · split
        · right
          rfl
        · split
          · right
            rfl
          · split
            · split
              · right
                rfl
              · left
                rfl
            · split
              · right
                rfl
              · left
                rfl

/-- Claim C10: whenever the gate denies (for any reason), no user document is
saved — in particular a period reset that became due on this call is only
persisted when the call is authorized. -/
theorem denied_no_save (now : Int) (uo : Option UserRec) (bid : Nat)
    (ty : AccessType)
    (h : (ensureActiveAndWithinLimits now uo bid ty).1 ≠ Outcome.authorized) :
    (ensureActiveAndWithinLimits now uo bid ty).2 = none := by
  rcases ensure_shape now uo bid ty with h1 | h1
  · exact absurd h1 h
  · exact h1

/-- Witness for C10 at the user-not-found denial. -/
theorem denied_no_save_witness :
    (ensureActiveAndWithinLimits 0 none 0 AccessType.read).2 = none :=
  denied_no_save 0 none 0 AccessType.read (by decide)

/-- A user whose period anchor is current is not reset. -/
theorem reset_noop (now s : Int) (u : UserRec)
    (hp : u.period_started_at = some s) (hs : now - s ≤ PERIOD_MS) :
    resetPeriodIfNeeded now u = u := by
  rw [resetPeriodIfNeeded_eq]
  have hf : shouldResetCode now u = false := by
    simp [shouldResetCode, effectiveStart, hp]
    omega
  simp [hf]

/-- One download by an active basic user in a current period, of an id not
yet consumed and with room left: authorized, id appended, saved. -/
theorem gate_download_new (now e s : Int) (sst : Option Int)
    (rl ds : List Nat) (bid : Nat) (he : ¬ e < now)
    (hs : now - s ≤ PERIOD_MS) (hnot : bid ∉ ds) (hlen : ds.length < 5) :
    ensureActiveAndWithinLimits now
        (some ⟨Plan.basic, SubStatus.active, sst, some e, some s, rl, ds⟩)
        bid AccessType.download =
      (Outcome.authorized,
        some ⟨Plan.basic, SubStatus.active, sst, some e, some s, rl, ds ++ [bid]⟩) := by
  have hreset := reset_noop now s
    ⟨Plan.basic, SubStatus.active, sst, some e, some s, rl, ds⟩ rfl hs
  have hge : ¬ (ds.length ≥ 5) := by omega
  simp only [ensureActiveAndWithinLimits, hreset]
  simp [he, hnot, hge, getPlanLimits]

/-- One download by an active basic user in a current period, of a new id
with the usage set already at capacity: limit denial, nothing saved. -/
theorem gate_download_full (now e s : Int) (sst : Option Int)
    (rl ds : List Nat) (bid : Nat) (he : ¬ e < now)
    (hs : now - s ≤ PERIOD_MS) (hnot : bid ∉ ds) (hlen : ds.length ≥ 5) :
    ensureActiveAndWithinLimits now
        (some ⟨Plan.basic, SubStatus.active, sst, some e, some s, rl, ds⟩)
        bid AccessType.download =
      (Outcome.limitReached, none) := by
  have hreset := reset_noop now s
    ⟨Plan.basic, SubStatus.active, sst, some e, some s, rl, ds⟩ rfl hs
  simp only [ensureActiveAndWithinLimits, hreset]
  simp [he, hnot, hlen, getPlanLimits]

/-- Re-download of an id already in the usage set: authorized, set unchanged. -/
theorem gate_download_repeat (now e s : Int) (sst : Option Int)
    (rl ds : List Nat) (bid : Nat) (he : ¬ e < now)
    (hs : now - s ≤ PERIOD_MS) (hmem : bid ∈ ds) :
    ensureActiveAndWithinLimits now
        (some ⟨Plan.basic, SubStatus.active, sst, some e, some s, rl, ds⟩)
        bid AccessType.download =
      (Outcome.authorized,
        some ⟨Plan.basic, SubStatus.active, sst, some e, some s, rl, ds⟩) := by
  have hreset := reset_noop now s
    ⟨Plan.basic, SubStatus.active, sst, some e, some s, rl, ds⟩ rfl hs
  simp only [ensureActiveAndWithinLimits, hreset]
  simp [he, hmem, getPlanLimits]

/-- Consuming a list of fresh distinct ids within the remaining capacity of a
current-period basic subscription authorizes every one of them and appends
them in order. -/
theorem consumeAll_fresh (now e s : Int) (sst : Option Int) (rl : List Nat)
    (he : ¬ e < now) (hs : now - s ≤ PERIOD_MS) :
    ∀ (ids ds : List Nat), ids.Nodup → (∀ i ∈ ids, i ∉ ds) →
      ds.length + ids.length ≤ 5 →
      consumeAll now ⟨Plan.basic, SubStatus.active, sst, some e, some s, rl, ds⟩
          ids AccessType.download =
        (⟨Plan.basic, SubStatus.active, sst, some e, some s, rl, ds ++ ids⟩,
          List.replicate ids.length Outcome.authorized)
  | [], ds, _, _, _ => by simp [consumeAll]
  | i :: rest, ds, hnd, hnin, hlen => by
    have hlen2 : ds.length < 5 := by
      simp only [List.length_cons] at hlen
      omega
    have hstep := gate_download_new now e s sst rl ds i he hs
      (hnin i (by simp)) hlen2
    have hinotrest : i ∉ rest := (List.nodup_cons.mp hnd).1
    have ih := consumeAll_fresh now e s sst rl he hs rest (ds ++ [i])
      (List.nodup_cons.mp hnd).2
      (fun j hj => by
        simp only [List.mem_append, List.mem_singleton]
        rintro (hjds | hji)
        · exact hnin j (List.mem_cons_of_mem _ hj) hjds
        · exact hinotrest (hji ▸ hj))
      (by simp only [List.length_append, List.length_cons,
            List.length_nil] at hlen ⊢; omega)
    simp only [consumeAll, outcomeOf, dbAfter, hstep, ih]
    simp [List.replicate_succ]

/-- Claim C2: from an active basic subscription with a current period and an
empty download set, five distinct ids are each authorized and recorded in
order; a sixth distinct id is denied with the download-limit reason and
nothing is saved; and re-downloading any of the five is authorized without
growing the set. -/
theorem basic_download_quota (now e s : Int) (sst : Option Int)
    (rl : List Nat) (d1 d2 d3 d4 d5 d6 : Nat) (he : ¬ e < now)
    (hs : now - s ≤ PERIOD_MS) (hnd : List.Nodup [d1, d2, d3, d4, d5, d6]) :
    consumeAll now ⟨Plan.basic, SubStatus.active, sst, some e, some s, rl, []⟩
        [d1, d2, d3, d4, d5] AccessType.download =
      (⟨Plan.basic, SubStatus.active, sst, some e, some s, rl, [d1, d2, d3, d4, d5]⟩,
        List.replicate 5 Outcome.authorized) ∧
    outcomeOf now
        ⟨Plan.basic, SubStatus.active, sst, some e, some s, rl, [d1, d2, d3, d4, d5]⟩
        d6 AccessType.download = Outcome.limitReached ∧
    dbAfter now
        ⟨Plan.basic, SubStatus.active, sst, some e, some s, rl, [d1, d2, d3, d4, d5]⟩
        d6 AccessType.download =
      ⟨Plan.basic, SubStatus.active, sst, some e, some s, rl, [d1, d2, d3, d4, d5]⟩ ∧
    ∀ d ∈ [d1, d2, d3, d4, d5],
      outcomeOf now
          ⟨Plan.basic, SubStatus.active, sst, some e, some s, rl, [d1, d2, d3, d4, d5]⟩
          d AccessType.download = Outcome.authorized ∧
      dbAfter now
          ⟨Plan.basic, SubStatus.active, sst, some e, some s, rl, [d1, d2, d3, d4, d5]⟩
          d AccessType.download =
        ⟨Plan.basic, SubStatus.active, sst, some e, some s, rl, [d1, d2, d3, d4, d5]⟩ := by
  have hnd5 : List.Nodup [d1, d2, d3, d4, d5] := by
    simp only [List.nodup_cons, List.mem_cons] at hnd ⊢
    tauto
  have hd6 : d6 ∉ [d1, d2, d3, d4, d5] := by
    simp only [List.nodup_cons, List.mem_cons, List.mem_singleton,
      List.not_mem_nil] at hnd ⊢
    tauto
  have hc := consumeAll_fresh now e s sst rl he hs [d1, d2, d3, d4, d5] []
    hnd5 (by simp) (by simp)
  have hfull := gate_download_full now e s sst rl [d1, d2, d3, d4, d5] d6 he hs
    hd6 (by simp)
  refine ⟨by simpa using hc, ?_, ?_, ?_⟩
  · simp [outcomeOf, hfull]
  · simp [dbAfter, hfull]
  · intro d hd
    have hrep := gate_download_repeat now e s sst rl [d1, d2, d3, d4, d5] d he hs hd
    exact ⟨by simp [outcomeOf, hrep], by simp [dbAfter, hrep]⟩

/-- Witness for C2 with ids 1..6 in an immediately granted basic plan. -/
theorem basic_download_quota_witness :
    consumeAll 0 ⟨Plan.basic, SubStatus.active, some 0, some 10, some 0, [], []⟩
        [1, 2, 3, 4, 5] AccessType.download =
      (⟨Plan.basic, SubStatus.active, some 0, some 10, some 0, [], [1, 2, 3, 4, 5]⟩,
        List.replicate 5 Outcome.authorized) ∧
    outcomeOf 0
        ⟨Plan.basic, SubStatus.active, some 0, some 10, some 0, [], [1, 2, 3, 4, 5]⟩
        6 AccessType.download = Outcome.limitReached ∧
    dbAfter 0
        ⟨Plan.basic, SubStatus.active, some 0, some 10, some 0, [], [1, 2, 3, 4, 5]⟩
        6 AccessType.download =
      ⟨Plan.basic, SubStatus.active, some 0, some 10, some 0, [], [1, 2, 3, 4, 5]⟩ ∧
    ∀ d ∈ [1, 2, 3, 4, 5],
      outcomeOf 0
          ⟨Plan.basic, SubStatus.active, some 0, some 10, some 0, [], [1, 2, 3, 4, 5]⟩
          d AccessType.download = Outcome.authorized ∧
      dbAfter 0
          ⟨Plan.basic, SubStatus.active, some 0, some 10, some 0, [], [1, 2, 3, 4, 5]⟩
          d AccessType.download =
        ⟨Plan.basic, SubStatus.active, some 0, some 10, some 0, [], [1, 2, 3, 4, 5]⟩ :=
  basic_download_quota 0 10 0 (some 0) [] 1 2 3 4 5 6
    (by decide) (by decide) (by decide)

/-- Claim C3: a stale period (more than 30 days old) at the download limit is
reset to empty with `period_started_at = now` before the check, so the next
distinct download is authorized and saved as the only item of the new
period. -/
theorem rollover_authorizes (now e s : Int) (sst : Option Int)
    (rl ds : List Nat) (bid : Nat) (he : ¬ e < now)
    (hstale : now - s > PERIOD_MS) (_hfull : ds.length = 5) :
    resetPeriodIfNeeded now ⟨Plan.basic, SubStatus.active, sst, some e, some s, rl, ds⟩ =
      resetState now ⟨Plan.basic, SubStatus.active, sst, some e, some s, rl, ds⟩ ∧
    ensureActiveAndWithinLimits now
        (some ⟨Plan.basic, SubStatus.active, sst, some e, some s, rl, ds⟩)
        bid AccessType.download =
      (Outcome.authorized,
        some ⟨Plan.basic, SubStatus.active, sst, some e, some now, [], [bid]⟩) := by
  have htrue : shouldResetCode now
      ⟨Plan.basic, SubStatus.active, sst, some e, some s, rl, ds⟩ = true := by
    simp [shouldResetCode, effectiveStart]
    omega
  have hreset : resetPeriodIfNeeded now
      ⟨Plan.basic, SubStatus.active, sst, some e, some s, rl, ds⟩ =
      ⟨Plan.basic, SubStatus.active, sst, some e, some now, [], []⟩ := by
    rw [resetPeriodIfNeeded_eq, htrue]
    rfl
  refine ⟨hreset, ?_⟩
  simp only [ensureActiveAndWithinLimits, hreset]
  simp [he, getPlanLimits]

/-- Witness for C3 thirty-one days after the period start. -/
theorem rollover_authorizes_witness :
    resetPeriodIfNeeded 2678400000
        ⟨Plan.basic, SubStatus.active, some 0, some 2678400000, some 0, [], [1, 2, 3, 4, 5]⟩ =
      resetState 2678400000
        ⟨Plan.basic, SubStatus.active, some 0, some 2678400000, some 0, [], [1, 2, 3, 4, 5]⟩ ∧
    ensureActiveAndWithinLimits 2678400000
        (some ⟨Plan.basic, SubStatus.active, some 0, some 2678400000, some 0, [], [1, 2, 3, 4, 5]⟩)
        6 AccessType.download =
      (Outcome.authorized,
        some ⟨Plan.basic, SubStatus.active, some 0, some 2678400000, some 2678400000, [], [6]⟩) :=
  rollover_authorizes 2678400000 2678400000 0 (some 0) [] [1, 2, 3, 4, 5] 6
    (by decide) (by decide) (by decide)

/-- Witness for the amended C9 at "a" versus "hello". -/
theorem calculateSimilarity_short_witness :
    ((['a'] : List Char).length < 2 ∨
      (['h', 'e', 'l', 'l', 'o'] : List Char).length < 2) ∧
    calculateSimilarity ['a'] ['h', 'e', 'l', 'l', 'o'] =
      if (['a'] : List Char) = ['h', 'e', 'l', 'l', 'o'] then 1 else 0 :=
  ⟨Or.inl (by decide),
   calculateSimilarity_short ['a'] ['h', 'e', 'l', 'l', 'o'] (Or.inl (by decide))⟩

/-! ## Lemmas about the subscription request queue -/

/-- Re-reading a present id after a save returns the saved document. -/
theorem findById_saveById {α : Type} (store : List (Nat × α)) (id : Nat)
    (v x : α) (h : findById store id = some x) :
    findById (saveById store id v) id = some v := by
  induction store with
  | nil => simp [findById] at h
  | cons p rest ih =>
    by_cases hp : p.1 = id
    · have hsave : saveById (p :: rest) id v = (id, v) :: saveById rest id v := by
        simp [saveById, hp]
      rw [hsave]
      simp [findById, List.find?_cons]
    · have hb : (p.1 == id) = false := by simp [hp]
      have hsave : saveById (p :: rest) id v = p :: saveById rest id v := by
        simp [saveById, hb, hp]
      have h2 : findById rest id = some x := by
        simpa [findById, List.find?_cons, hb] using h
      have ih2 := ih h2
      rw [hsave]
      unfold findById at ih2 ⊢
      rw [List.find?_cons]
      simp only [hb]
      exact ih2

/-- Claim C6: approve fails with NotFound when the request id is unknown and
with AlreadyProcessed when the request is already processed, both without
touching either store; and a second approve right after a successful one
returns AlreadyProcessed and leaves both stores (in particular every user's
`subscription_end`) unchanged. -/
theorem approve_spec (now now2 : Int) (reqs : List (Nat × SubRequest))
    (users : List (Nat × UserRec)) (rid : Nat) :
    (findById reqs rid = none →
      approve now reqs users rid = (ApproveResult.notFound, reqs, users)) ∧
    (∀ r, findById reqs rid = some r → r.status = ReqStatus.processed →
      approve now reqs users rid = (ApproveResult.alreadyProcessed, reqs, users)) ∧
    (∀ reqs2 users2,
      approve now reqs users rid = (ApproveResult.ok, reqs2, users2) →
      approve now2 reqs2 users2 rid =
        (ApproveResult.alreadyProcessed, reqs2, users2)) := by
  refine ⟨?_, ?_, ?_⟩
  · intro h
    unfold approve
    rw [h]
  · intro r h hst
    unfold approve
    rw [h]
    dsimp only
    rw [if_pos hst]
  · intro reqs2 users2 h
    unfold approve at h
    rcases hr : findById reqs rid with _ | r
    · rw [hr] at h
      simp at h
    · rw [hr] at h
      dsimp only at h
      by_cases hst : r.status = ReqStatus.processed
      · rw [if_pos hst] at h
        simp at h
      · rw [if_neg hst] at h
        rcases hu : findById users r.user with _ | u
        · rw [hu] at h
          simp at h
        · rw [hu] at h
          dsimp only at h
          have h2 : saveById reqs rid
              { r with status := ReqStatus.processed, processed_at := some now } = reqs2 ∧
              saveById users r.user (grantSubscription now r.plan u) = users2 := by
            have := h
            simp only [Prod.mk.injEq] at this
            exact ⟨this.2.1, this.2.2⟩
          obtain ⟨hq, hw⟩ := h2
          subst hq
          subst hw
          unfold approve
          rw [findById_saveById reqs rid _ r hr]
          dsimp only
          rw [if_pos rfl]

/-- Witness for C6: approving an already-processed request changes nothing. -/
theorem approve_spec_witness :
    approve 0 [(1, ⟨7, Plan.basic, ReqStatus.processed, some 0, ""⟩)] [] 1 =
      (ApproveResult.alreadyProcessed,
        [(1, ⟨7, Plan.basic, ReqStatus.processed, some 0, ""⟩)], []) :=
  (approve_spec 0 0 [(1, ⟨7, Plan.basic, ReqStatus.processed, some 0, ""⟩)] [] 1).2.1
    ⟨7, Plan.basic, ReqStatus.processed, some 0, ""⟩ (by decide) (by decide)

/-- Claim C7: submitting while a pending request for the same (user, plan)
exists answers with the existing request's id and creates no record; and the
at-most-one-pending-per-(user, plan) invariant is preserved by submit. -/
theorem submit_dedup (reqs : List (Nat × SubRequest)) (uid : Nat) (plan : Plan)
    (note : String) (freshId : Nat) :
    (∀ id r, findPendingReq reqs uid plan = some (id, r) →
      submitRequest reqs uid plan note freshId = (id, reqs)) ∧
    (atMostOnePending reqs →
      atMostOnePending (submitRequest reqs uid plan note freshId).2) := by
  constructor
  · intro id r h
    unfold submitRequest
    rw [h]
  · intro hinv
    unfold submitRequest
    rcases hf : findPendingReq reqs uid plan with _ | pr
    · dsimp only
      intro uid2 plan2
      rw [List.filter_append]
      by_cases hsame : uid2 = uid ∧ plan2 = plan
      · obtain ⟨h1, h2⟩ := hsame
        subst h1
        subst h2
        have hz : reqs.filter (isPendingFor uid2 plan2) = [] := by
          refine List.filter_eq_nil_iff.mpr ?_
          intro a ha
          exact List.find?_eq_none.mp hf a ha
        rw [hz]
        simp [isPendingFor]
      · have hnew : isPendingFor uid2 plan2
            (freshId, ⟨uid, plan, ReqStatus.pending, none, note⟩) = false := by
          simp only [isPendingFor, decide_eq_false_iff_not]
          rintro ⟨ha, hb, -⟩
          exact hsame ⟨ha.symm, hb.symm⟩
        simp only [List.filter_cons, hnew, List.filter_nil, List.append_nil]
        simpa using hinv uid2 plan2
    · dsimp only
      exact hinv

/-- Witness for C7: a duplicate basic request is absorbed into the pending
one. -/
theorem submit_dedup_witness :
    submitRequest [(3, ⟨7, Plan.basic, ReqStatus.pending, none, ""⟩)] 7
        Plan.basic "again" 9 =
      (3, [(3, ⟨7, Plan.basic, ReqStatus.pending, none, ""⟩)]) :=
  (submit_dedup [(3, ⟨7, Plan.basic, ReqStatus.pending, none, ""⟩)] 7
      Plan.basic "again" 9).1
    3 ⟨7, Plan.basic, ReqStatus.pending, none, ""⟩ (by decide)

end DigitalLibrary
